import Mathlib

/-!
Verification development for the deploy-setup CLI (src/src/core/detector.ts,
src/src/core/collector.ts, src/src/core/types.ts, src/src/utils/config-store.ts).

The TypeScript code is shallowly embedded: the filesystem a detector run sees is a
value (`FS`), interactive prompt answers are explicit arguments, and the mutable
user-global store is threaded as explicit state.  String operations used by the
code (`split`, `trim`, `includes`, `startsWith`, `toLowerCase`, first-occurrence
`replace`, and the three port regular expressions) are modelled by structural
recursion over `List Char` so that every definition evaluates inside the kernel.
-/

namespace DeploySetup

/-! ## String operations with JavaScript semantics -/

/-- Whitespace class used by JavaScript `\s` and `String.prototype.trim`,
restricted to the ASCII whitespace characters (the file contents handled by the
tool are ASCII; the extra Unicode space code points of `\s` are not modelled). -/
def isSpaceChar (c : Char) : Bool :=
  c = ' ' || c = '\t' || c = '\n' || c = '\r' || c = '\x0b' || c = '\x0c'

/-- JavaScript `String.prototype.trim` on the character list of a string. -/
def trimChars (l : List Char) : List Char :=
  ((l.dropWhile isSpaceChar).reverse.dropWhile isSpaceChar).reverse

/-- JavaScript `String.prototype.split` with a single-character separator:
`"".split(sep)` is `[""]`, and trailing separators produce trailing empties. -/
def splitOnChar (sep : Char) : List Char → List (List Char)
  | [] => [[]]
  | c :: rest =>
    if c = sep then [] :: splitOnChar sep rest
    else
      match splitOnChar sep rest with
      | [] => [[c]]
      | h :: t => (c :: h) :: t

/-- JavaScript `String.prototype.startsWith('#')` on the raw first character. -/
def startsHash : List Char → Bool
  | [] => false
  | c :: _ => c = '#'

/-- Does the text (second argument) start with the pattern (first argument)? -/
def startsWithChars : List Char → List Char → Bool
  | [], _ => true
  | _ :: _, [] => false
  | p :: ps, c :: cs => p = c && startsWithChars ps cs

/-- Does the pattern occur contiguously anywhere in the text? -/
def containsSub (pat : List Char) : List Char → Bool
  | [] => pat.isEmpty
  | c :: rest => startsWithChars pat (c :: rest) || containsSub pat rest

/-- JavaScript `String.prototype.includes` (contiguous substring test). -/
def strIncludes (s pat : String) : Bool :=
  containsSub pat.data s.data

/-- JavaScript `String.prototype.toLowerCase` (ASCII behaviour). -/
def strToLower (s : String) : String :=
  String.mk (s.data.map Char.toLower)

/-- Replace the first occurrence of `pat` (JavaScript `String.prototype.replace`
with a string pattern replaces only the leftmost match). -/
def replaceFirstList (pat rep : List Char) : List Char → List Char
  | [] => []
  | c :: rest =>
    if startsWithChars pat (c :: rest) then rep ++ (c :: rest).drop pat.length
    else c :: replaceFirstList pat rep rest

/-- First-occurrence string replacement, as used for `app:app` → `run:app`. -/
def replaceFirst (s pat rep : String) : String :=
  String.mk (replaceFirstList pat.data rep.data s.data)

/-! ## The three port regular expressions of `detectPort`

Each pattern is `literal, \s*, delimiter, \s*, (\d{4,5})` (pattern 3 also allows
one quote before the digits).  Because the character following each `\s*` is
never itself a whitespace character, and a quote is never a digit, the greedy
backtracking search of the JavaScript engine is deterministic here, so a match
attempt at a fixed position is a straight-line function. -/

/-- Consume a literal case-insensitively (the `i` flag), returning the rest. -/
def charsCI : List Char → List Char → Option (List Char)
  | [], s => some s
  | _ :: _, [] => none
  | p :: ps, c :: cs => if p.toLower = c.toLower then charsCI ps cs else none

/-- Consume a literal case-sensitively, returning the rest. -/
def charsCS : List Char → List Char → Option (List Char)
  | [], s => some s
  | _ :: _, [] => none
  | p :: ps, c :: cs => if p = c then charsCS ps cs else none

/-- Greedy `\s*`. -/
def dropSpaces : List Char → List Char
  | [] => []
  | c :: rest => if isSpaceChar c then dropSpaces rest else c :: rest

/-- Greedy `(\d{4,5})` followed by `parseInt(match[1], 10)`: take up to five
leading digits; fail if fewer than four are present. -/
def capture45 (s : List Char) : Option Nat :=
  let ds := (s.takeWhile Char.isDigit).take 5
  if 4 ≤ ds.length then
    some (ds.foldl (fun n c => 10 * n + (c.toNat - 48)) 0)
  else none

/-- Match attempt of `/port\s*[=:]\s*(\d{4,5})/i` at the start of `s`. -/
def p1MatchAt (s : List Char) : Option Nat :=
  match charsCI "port".data s with
  | none => none
  | some s1 =>
    match dropSpaces s1 with
    | [] => none
    | c :: s2 =>
      if c = '=' ∨ c = ':' then capture45 (dropSpaces s2) else none

/-- Match attempt of `/listen\s*\(\s*(\d{4,5})/i` at the start of `s`. -/
def p2MatchAt (s : List Char) : Option Nat :=
  match charsCI "listen".data s with
  | none => none
  | some s1 =>
    match dropSpaces s1 with
    | [] => none
    | c :: s2 =>
      if c = '(' then capture45 (dropSpaces s2) else none

/-- Match attempt of `/PORT\s*[=:]\s*["']?(\d{4,5})/` at the start of `s`. -/
def p3MatchAt (s : List Char) : Option Nat :=
  match charsCS "PORT".data s with
  | none => none
  | some s1 =>
    match dropSpaces s1 with
    | [] => none
    | c :: s2 =>
      if c = '=' ∨ c = ':' then
        match dropSpaces s2 with
        | [] => none
        | d :: s3 =>
          if d = '"' ∨ d = '\'' then capture45 s3 else capture45 (d :: s3)
      else none

/-- Leftmost match of a pattern over a string (`String.prototype.match` without
the global flag returns the leftmost match; `match[1]` is our returned number). -/
def scanMatch (m : List Char → Option Nat) : List Char → Option Nat
  | [] => m []
  | c :: rest =>
    match m (c :: rest) with
    | some n => some n
    | none => scanMatch m rest

/-- The `for (const pattern of portPatterns)` loop body of `detectPort` on one
file content: patterns are tried in their fixed order over the whole content. -/
def matchFirstPattern (content : String) : Option Nat :=
  match scanMatch p1MatchAt content.data with
  | some n => some n
  | none =>
    match scanMatch p2MatchAt content.data with
    | some n => some n
    | none => scanMatch p3MatchAt content.data

/-! ## Data model (src/src/core/types.ts) -/

/-- The closed eight-kind `ProjectType` enumeration. -/
inductive ProjectType where
  | flask | django | fastapi | nestjs | nextjs | nuxtjs | vueSpa | reactSpa
deriving DecidableEq, Repr

/-- `Language = 'python' | 'node'`. -/
inductive Language where
  | python | node
deriving DecidableEq, Repr

/-- Per-archetype static default row of `PROJECT_DEFAULTS`. -/
structure ProjectDefaults where
  port : Nat
  buildCmd : String
  startCmd : String
  entryFile : String
deriving DecidableEq, Repr

/-- The eight-entry static defaults table `PROJECT_DEFAULTS`. -/
def PROJECT_DEFAULTS : ProjectType → ProjectDefaults
  | .flask => ⟨5000, "", "gunicorn -w 4 -b 0.0.0.0:5000 app:app", "app.py"⟩
  | .django => ⟨8000, "python manage.py collectstatic --noinput",
      "gunicorn -w 4 -b 0.0.0.0:8000 config.wsgi:application", "manage.py"⟩
  | .fastapi => ⟨8000, "", "uvicorn main:app --host 0.0.0.0 --port 8000", "main.py"⟩
  | .nestjs => ⟨3000, "npm run build", "node dist/main", "src/main.ts"⟩
  | .nextjs => ⟨3000, "npm run build", "npm start", "pages/index.tsx"⟩
  | .nuxtjs => ⟨3000, "npm run build", "node .output/server/index.mjs", "nuxt.config.ts"⟩
  | .vueSpa => ⟨80, "npm run build", "", "src/main.ts"⟩
  | .reactSpa => ⟨80, "npm run build", "", "src/index.tsx"⟩

/-- `DetectionResult` of types.ts. -/
structure DetectionResult where
  type : Option ProjectType
  language : Option Language
  languageVersion : String
  port : Nat
  buildCmd : String
  startCmd : String
  entryFile : String
  envFile : Option String
  envKeys : List String
  hasDocker : Bool
  hasCI : Bool
deriving DecidableEq, Repr

/-! ## The filesystem a detector run observes -/

/-- What one `detectProject(rootDir)` run can observe of the filesystem:
`listing` is the `fs.readdirSync(rootDir)` result in the order the OS returned
it; `content p` is the UTF-8 content of the file at relative path `p`, `none`
when the file does not exist (`fs.existsSync` false).  `pkgDeps` models the
keys of `{...pkg.dependencies, ...pkg.devDependencies}` after the black-box
`JSON.parse` of `package.json` (JSON parsing is an external collaborator of the
spec; a listed `package.json` is assumed well formed, the malformed case
propagates a parse error and is outside the claims).  `hasWorkflows` is
`fs.existsSync(rootDir/.github/workflows)`. -/
structure FS where
  listing : List String
  content : String → Option String
  pkgDeps : List String
  hasWorkflows : Bool

/-- A guarded `fs.readFileSync`: the code only reads paths it has just seen in
the listing or checked with `existsSync`, so the missing-file default is inert. -/
def readF (fs : FS) (p : String) : String :=
  (fs.content p).getD ""

/-! ## Detector (src/src/core/detector.ts) -/

/-- `parseEnvKeys`: split on newlines, keep lines that are non-blank after
trimming, do not start with `#` (untrimmed), and contain `=`; the key is the
text before the first `=`, trimmed. -/
def parseEnvKeys (content : String) : List String :=
  ((splitOnChar '\n' content.data).filter
      (fun l => !(trimChars l).isEmpty && !startsHash l && l.contains '=')).map
    (fun l => String.mk (trimChars ((splitOnChar '=' l).headD [])))

/-- Predicate of the `files.find` arrow for env-file discovery. -/
def isEnvName (f : String) : Bool :=
  f = ".env" || f = ".env.example" || f = ".env.production"

/-- The dependency text `deps` of `detectPythonFramework`: lower-cased content
of `requirements.txt` if listed, else of `pyproject.toml` if listed, else `""`. -/
def pythonDeps (fs : FS) : String :=
  if fs.listing.contains "requirements.txt" then strToLower (readF fs "requirements.txt")
  else if fs.listing.contains "pyproject.toml" then strToLower (readF fs "pyproject.toml")
  else ""

/-- `detectPythonFramework`: manifest content first, filename fallback second. -/
def detectPythonFramework (fs : FS) : Option ProjectType :=
  let deps := pythonDeps fs
  if strIncludes deps "fastapi" then some .fastapi
  else if strIncludes deps "django" then some .django
  else if strIncludes deps "flask" then some .flask
  else if fs.listing.contains "manage.py" then some .django
  else if fs.listing.contains "app.py" then some .flask
  else if fs.listing.contains "main.py" then some .fastapi
  else none

/-- `detectNodeFramework`: key-presence checks on the merged dependency map. -/
def detectNodeFramework (fs : FS) : Option ProjectType :=
  let allDeps := fs.pkgDeps
  if allDeps.contains "@nestjs/core" then some .nestjs
  else if allDeps.contains "next" then some .nextjs
  else if allDeps.contains "nuxt" || allDeps.contains "nuxt3" then some .nuxtjs
  else if allDeps.contains "vue" && !allDeps.contains "nuxt" then some .vueSpa
  else if allDeps.contains "react" && !allDeps.contains "next" then some .reactSpa
  else none

/-- Candidate source files scanned by `detectPort` for each language. -/
def portCandidates : Option Language → List String
  | some .python => ["app.py", "main.py", "manage.py", "config.py", "settings.py"]
  | some .node => ["src/main.ts", "src/index.ts", "server.js", "index.js", "app.js"]
  | none => []

/-- `detectPort`: candidate files in listed order; within one file the three
patterns in fixed order; a missing file is skipped; the first match wins. -/
def detectPort (fs : FS) (language : Option Language) : Option Nat :=
  (portCandidates language).findSome? fun f =>
    match fs.content f with
    | none => none
    | some content => matchFirstPattern content

/-- The freshly initialised `result` record of `detectProject`. -/
def baseResult (fs : FS) : DetectionResult where
  type := none
  language := none
  languageVersion := ""
  port := 3000
  buildCmd := ""
  startCmd := ""
  entryFile := ""
  envFile := none
  envKeys := []
  hasDocker := fs.listing.contains "Dockerfile"
  hasCI := fs.hasWorkflows

/-- The `// Detect .env` block: `files.find(...)` (first hit in listing order). -/
def envStage (fs : FS) (r : DetectionResult) : DetectionResult :=
  match fs.listing.find? isEnvName with
  | some f => { r with envFile := some f, envKeys := parseEnvKeys (readF fs f) }
  | none => r

/-- The language/framework block: Python markers strictly before the Node one. -/
def langStage (fs : FS) (r : DetectionResult) : DetectionResult :=
  if fs.listing.contains "requirements.txt" || fs.listing.contains "pyproject.toml"
      || fs.listing.contains "Pipfile" then
    { r with language := some .python, languageVersion := "3.11",
             type := detectPythonFramework fs }
  else if fs.listing.contains "package.json" then
    { r with language := some .node, languageVersion := "20",
             type := detectNodeFramework fs }
  else r

/-- The Flask factory-pattern refinement: `run.py` must exist and contain
`create_app`; then `app:app` → `run:app` in the start command, entry `run.py`. -/
def flaskRefine (fs : FS) (r : DetectionResult) : DetectionResult :=
  match fs.content "run.py" with
  | some c =>
    if strIncludes c "create_app" then
      { r with startCmd := replaceFirst r.startCmd "app:app" "run:app",
               entryFile := "run.py" }
    else r
  | none => r

/-- The `// Apply defaults if type detected` block, including the refinement. -/
def defaultsStage (fs : FS) (r : DetectionResult) : DetectionResult :=
  match r.type with
  | none => r
  | some t =>
    let r2 := { r with port := (PROJECT_DEFAULTS t).port,
                       buildCmd := (PROJECT_DEFAULTS t).buildCmd,
                       startCmd := (PROJECT_DEFAULTS t).startCmd,
                       entryFile := (PROJECT_DEFAULTS t).entryFile }
    if t = ProjectType.flask then flaskRefine fs r2 else r2

/-- The port-override block.  `if (detectedPort)` is JavaScript truthiness, so a
matched value of `0` (for example `parseInt("0000")`) would not override. -/
def portStage (fs : FS) (r : DetectionResult) : DetectionResult :=
  match detectPort fs r.language with
  | some p => if p = 0 then r else { r with port := p }
  | none => r

/-- `detectProject`: the four sequential mutation blocks of the source applied
in order to the initial record. -/
def detectProject (fs : FS) : DetectionResult :=
  portStage fs (defaultsStage fs (langStage fs (envStage fs (baseResult fs))))

/-! ## Config store (src/src/utils/config-store.ts)

The store is one JSON file; `loadGlobalConfig` / `saveGlobalConfig` are the
black-box persistence boundary, so the store state is threaded as a value.  A
JavaScript object keyed by strings is modelled as an association list:
assignment to an existing key keeps its position and replaces the value,
assignment to a fresh key appends. -/

/-- `ServerConfig` of types.ts. -/
structure ServerConfig where
  host : String
  user : String
  sshKeyPath : String
  deployDir : String
deriving DecidableEq, Repr

/-- One `projects` entry of `GlobalConfig`. -/
structure ProjectRecord where
  type : String
  lastDeploy : Option String
deriving DecidableEq, Repr

/-- `GlobalConfig` of types.ts: the user-global store. -/
structure GlobalConfig where
  servers : List (String × ServerConfig)
  projects : List (String × ProjectRecord)
deriving DecidableEq, Repr

/-- Property read `obj[key]` on a string-keyed object. -/
def lookupAssoc {α : Type} (l : List (String × α)) (k : String) : Option α :=
  (l.find? (fun e => e.1 == k)).map (fun e => e.2)

/-- Property write `obj[key] = v` on a string-keyed object. -/
def setAssoc {α : Type} : List (String × α) → String → α → List (String × α)
  | [], k, v => [(k, v)]
  | e :: rest, k, v =>
    if e.1 == k then (k, v) :: rest else e :: setAssoc rest k v

/-- `saveServer(name, server)`: `config.servers[name] = server` then persist;
the `projects` map is untouched. -/
def saveServer (cfg : GlobalConfig) (name : String) (server : ServerConfig) :
    GlobalConfig :=
  { cfg with servers := setAssoc cfg.servers name server }

/-! ## Collector / review state machine (src/src/core/collector.ts)

Interactive prompts are external collaborators: each prompt's validated answer
is an explicit argument (the payload carried by the choice or action that led to
it).  The store is threaded because `collectServerConfig` may write to it. -/

/-- The subset of `CollectedConfig.project` produced by `collectProjectConfig`. -/
structure ProjectSection where
  name : String
  type : ProjectType
  language : Language
  port : Nat
  buildCmd : String
  startCmd : String
deriving DecidableEq, Repr

/-- `DomainConfig` of types.ts. -/
structure DomainConfig where
  enabled : Bool
  name : String
  https : Bool
deriving DecidableEq, Repr

/-- `BranchConfig` of types.ts. -/
structure BranchConfig where
  production : String
  staging : Option String
deriving DecidableEq, Repr

/-- `CollectedConfig` of types.ts. -/
structure CollectedConfig where
  project : ProjectSection
  server : ServerConfig
  domain : DomainConfig
  secrets : List String
  branches : BranchConfig
  registry : String
deriving DecidableEq, Repr

/-- The operator's path through `collectServerConfig`: either pick one of the
listed saved profiles (the following prompt can override only the deploy
directory), or fall through to the add-new prompts, whose answers are then
persisted under the chosen label. -/
inductive ServerChoice where
  | pick (label : String) (deployDirOverride : String)
  | addNew (answers : ServerConfig) (saveName : String)

/-- `collectServerConfig`: the pick path returns the saved profile with the
deploy directory overridden and performs no store write (the in-memory mutation
`server.deployDir = deployDir` aliases only the transient loaded copy; the file
is never rewritten, and every later read reloads from disk).  The add-new path
calls `saveServer` unconditionally before returning.  `none` is the unreachable
case of picking a label the prompt never offered. -/
def collectServerConfig (st : GlobalConfig) (choice : ServerChoice) :
    Option (ServerConfig × GlobalConfig) :=
  match choice with
  | .pick label d =>
    match lookupAssoc st.servers label with
    | some s => some ({ s with deployDir := d }, st)
    | none => none
  | .addNew answers saveName => some (answers, saveServer st saveName answers)

/-- One answer to the review prompt, carrying the value the corresponding
re-collection interaction would produce. -/
inductive ReviewAction where
  | confirm
  | cancel
  | editProject (p : ProjectSection)
  | editServer (choice : ServerChoice)
  | editDomain (d : DomainConfig)

/-- How a review session ends: `confirm` returns the config; `cancel` calls
`process.exit(0)`, so no configuration (and no generated-files list) is ever
produced. -/
inductive ReviewOutcome where
  | confirmed (config : CollectedConfig)
  | cancelled
deriving DecidableEq

/-- `reviewLoop` driven by the finite list of review answers; `none` means the
interaction is still pending (no outcome reached with the given answers) or an
unreachable prompt value occurred. -/
def reviewLoop (config : CollectedConfig) (st : GlobalConfig) :
    List ReviewAction → Option (ReviewOutcome × GlobalConfig)
  | [] => none
  | a :: rest =>
    match a with
    | .confirm => some (.confirmed config, st)
    | .cancel => some (.cancelled, st)
    | .editProject p => reviewLoop { config with project := p } st rest
    | .editServer ch =>
      match collectServerConfig st ch with
      | some (s, st2) => reviewLoop { config with server := s } st2 rest
      | none => none
    | .editDomain d => reviewLoop { config with domain := d } st rest

/-- `collectConfig`: sequence the five collection steps (their interactive
answers given as arguments), assemble the record with the fixed registry
`ghcr.io`, and enter the review loop.  The server step runs, and may write the
store, before the review loop is ever entered. -/
def collectConfig (st : GlobalConfig) (project : ProjectSection)
    (serverChoice : ServerChoice) (domain : DomainConfig) (secrets : List String)
    (branches : BranchConfig) (reviewActions : List ReviewAction) :
    Option (ReviewOutcome × GlobalConfig) :=
  match collectServerConfig st serverChoice with
  | some (server, st2) =>
    reviewLoop
      { project := project, server := server, domain := domain,
        secrets := secrets, branches := branches, registry := "ghcr.io" }
      st2 reviewActions
  | none => none

/-! ## Helper lemmas -/

theorem find?_eq_filter_head? {α : Type} (p : α → Bool) (l : List α) :
    l.find? p = (l.filter p).head? := by
  induction l with
  | nil => rfl
  | cons a t ih =>
    by_cases h : p a
    · rw [List.find?_cons_of_pos _ h, List.filter_cons_of_pos h, List.head?_cons]
    · rw [List.find?_cons_of_neg _ h, List.filter_cons_of_neg h, ih]

theorem portStage_type (fs : FS) (r : DetectionResult) :
    (portStage fs r).type = r.type := by
  rcases h : detectPort fs r.language with _ | p <;> simp only [portStage, h]
  split <;> rfl

theorem portStage_language (fs : FS) (r : DetectionResult) :
    (portStage fs r).language = r.language := by
  rcases h : detectPort fs r.language with _ | p <;> simp only [portStage, h]
  split <;> rfl

theorem portStage_startCmd (fs : FS) (r : DetectionResult) :
    (portStage fs r).startCmd = r.startCmd := by
  rcases h : detectPort fs r.language with _ | p <;> simp only [portStage, h]
  split <;> rfl

theorem portStage_entryFile (fs : FS) (r : DetectionResult) :
    (portStage fs r).entryFile = r.entryFile := by
  rcases h : detectPort fs r.language with _ | p <;> simp only [portStage, h]
  split <;> rfl

theorem portStage_envFile (fs : FS) (r : DetectionResult) :
    (portStage fs r).envFile = r.envFile := by
  rcases h : detectPort fs r.language with _ | p <;> simp only [portStage, h]
  split <;> rfl

theorem portStage_envKeys (fs : FS) (r : DetectionResult) :
    (portStage fs r).envKeys = r.envKeys := by
  rcases h : detectPort fs r.language with _ | p <;> simp only [portStage, h]
  split <;> rfl

theorem flaskRefine_type (fs : FS) (r : DetectionResult) :
    (flaskRefine fs r).type = r.type := by
  rcases h : fs.content "run.py" with _ | c <;> simp only [flaskRefine, h]
  split <;> rfl

theorem flaskRefine_language (fs : FS) (r : DetectionResult) :
    (flaskRefine fs r).language = r.language := by
  rcases h : fs.content "run.py" with _ | c <;> simp only [flaskRefine, h]
  split <;> rfl

theorem flaskRefine_envFile (fs : FS) (r : DetectionResult) :
    (flaskRefine fs r).envFile = r.envFile := by
  rcases h : fs.content "run.py" with _ | c <;> simp only [flaskRefine, h]
  split <;> rfl

theorem flaskRefine_envKeys (fs : FS) (r : DetectionResult) :
    (flaskRefine fs r).envKeys = r.envKeys := by
  rcases h : fs.content "run.py" with _ | c <;> simp only [flaskRefine, h]
  split <;> rfl

theorem defaultsStage_type (fs : FS) (r : DetectionResult) :
    (defaultsStage fs r).type = r.type := by
  rcases h : r.type with _ | t <;> simp only [defaultsStage, h]
  split
  · rw [flaskRefine_type]
  · rfl

theorem defaultsStage_language (fs : FS) (r : DetectionResult) :
    (defaultsStage fs r).language = r.language := by
  rcases h : r.type with _ | t <;> simp only [defaultsStage, h]
  split
  · rw [flaskRefine_language]
  · rfl

theorem defaultsStage_envFile (fs : FS) (r : DetectionResult) :
    (defaultsStage fs r).envFile = r.envFile := by
  rcases h : r.type with _ | t <;> simp only [defaultsStage, h]
  split
  · rw [flaskRefine_envFile]
  · rfl

theorem defaultsStage_envKeys (fs : FS) (r : DetectionResult) :
    (defaultsStage fs r).envKeys = r.envKeys := by
  rcases h : r.type with _ | t <;> simp only [defaultsStage, h]
  split
  · rw [flaskRefine_envKeys]
  · rfl

theorem langStage_envFile (fs : FS) (r : DetectionResult) :
    (langStage fs r).envFile = r.envFile := by
  unfold langStage
  split
  · rfl
  · split <;> rfl

theorem langStage_envKeys (fs : FS) (r : DetectionResult) :
    (langStage fs r).envKeys = r.envKeys := by
  unfold langStage
  split
  · rfl
  · split <;> rfl

theorem envStage_base_envFile (fs : FS) :
    (envStage fs (baseResult fs)).envFile = fs.listing.find? isEnvName := by
  rcases h : fs.listing.find? isEnvName with _ | f <;>
    simp only [envStage, h] <;> rfl

theorem envStage_base_envKeys (fs : FS) :
    (envStage fs (baseResult fs)).envKeys =
      (match fs.listing.find? isEnvName with
        | some f => parseEnvKeys (readF fs f)
        | none => []) := by
  rcases h : fs.listing.find? isEnvName with _ | f <;>
    simp only [envStage, h] <;> rfl

theorem detectProject_envFile (fs : FS) :
    (detectProject fs).envFile = fs.listing.find? isEnvName := by
  unfold detectProject
  rw [portStage_envFile, defaultsStage_envFile, langStage_envFile,
    envStage_base_envFile]

theorem detectProject_envKeys (fs : FS) :
    (detectProject fs).envKeys =
      (match fs.listing.find? isEnvName with
        | some f => parseEnvKeys (readF fs f)
        | none => []) := by
  unfold detectProject
  rw [portStage_envKeys, defaultsStage_envKeys, langStage_envKeys,
    envStage_base_envKeys]

theorem detectProject_type_python (fs : FS)
    (h : fs.listing.contains "requirements.txt" = true) :
    (detectProject fs).type = detectPythonFramework fs := by
  unfold detectProject
  rw [portStage_type, defaultsStage_type]
  unfold langStage
  split
  · rfl
  · rename_i hcond
    have hm : "requirements.txt" ∈ fs.listing := by simpa using h
    exact absurd (by simp [hm]) hcond

theorem detectProject_language_python (fs : FS)
    (h : fs.listing.contains "requirements.txt" = true) :
    (detectProject fs).language = some Language.python := by
  unfold detectProject
  rw [portStage_language, defaultsStage_language]
  unfold langStage
  split
  · rfl
  · rename_i hcond
    have hm : "requirements.txt" ∈ fs.listing := by simpa using h
    exact absurd (by simp [hm]) hcond

theorem lookupAssoc_setAssoc_self {α : Type} (l : List (String × α)) (k : String)
    (v : α) : lookupAssoc (setAssoc l k v) k = some v := by
  induction l with
  | nil => simp [setAssoc, lookupAssoc]
  | cons e rest ih =>
    by_cases h : e.1 == k
    · simp [setAssoc, h, lookupAssoc]
    · simp only [setAssoc, h, Bool.false_eq_true, if_false]
      simpa [lookupAssoc, h] using ih

theorem lookupAssoc_setAssoc_other {α : Type} (l : List (String × α)) (k : String)
    (v : α) (l2 : String) (h : l2 ≠ k) :
    lookupAssoc (setAssoc l k v) l2 = lookupAssoc l l2 := by
  have hk : (k == l2) = false := by
    simp only [beq_eq_false_iff_ne]
    exact fun hx => h hx.symm
  induction l with
  | nil => simp [setAssoc, lookupAssoc, hk]
  | cons e rest ih =>
    by_cases he : e.1 == k
    · have he2 : (e.1 == l2) = false := by
        simp only [beq_iff_eq] at he
        simp only [beq_eq_false_iff_ne, he]
        exact fun hx => h hx.symm
      simp [setAssoc, he, lookupAssoc, List.find?_cons, hk, he2]
    · simp only [setAssoc, he, Bool.false_eq_true, if_false]
      by_cases he3 : e.1 == l2
      · simp [lookupAssoc, he3]
      · simpa [lookupAssoc, he3] using ih

theorem reviewLoop_confirmed_frame (acts : List ReviewAction) :
    ∀ (c : CollectedConfig) (st : GlobalConfig) (c2 : CollectedConfig)
      (st2 : GlobalConfig),
      reviewLoop c st acts = some (ReviewOutcome.confirmed c2, st2) →
      c2.secrets = c.secrets ∧ c2.branches = c.branches := by
  induction acts with
  | nil => intro c st c2 st2 h; simp [reviewLoop] at h
  | cons a rest ih =>
    intro c st c2 st2 h
    cases a with
    | confirm =>
      simp only [reviewLoop, Option.some.injEq, Prod.mk.injEq,
        ReviewOutcome.confirmed.injEq] at h
      rw [← h.1]
      exact ⟨rfl, rfl⟩
    | cancel => simp [reviewLoop] at h
    | editProject p =>
      have := ih _ _ _ _ h
      simpa using this
    | editServer ch =>
      rcases hcs : collectServerConfig st ch with _ | pr
      · simp only [reviewLoop] at h
        rw [hcs] at h
        simp at h
      · obtain ⟨s, stx⟩ := pr
        simp only [reviewLoop] at h
        rw [hcs] at h
        have := ih _ _ _ _ h
        simpa using this
    | editDomain d =>
      have := ih _ _ _ _ h
      simpa using this

/-! ## Claims about the collector and the store -/

/-- C7: in the review loop, choosing edit-server (re-collecting a server
section `s`) and then confirm returns a configuration whose server section is
the freshly re-collected one while the project, domain, secrets, branches and
registry sections are unchanged; and no sequence of review actions that ends in
a confirmed configuration can have modified the secrets or branches sections. -/
theorem review_edit_server_frame (c : CollectedConfig) (st : GlobalConfig)
    (ch : ServerChoice) (s : ServerConfig) (st2 : GlobalConfig)
    (acts : List ReviewAction) (c2 : CollectedConfig) (st3 : GlobalConfig)
    (h : collectServerConfig st ch = some (s, st2))
    (h2 : reviewLoop c st acts = some (ReviewOutcome.confirmed c2, st3)) :
    reviewLoop c st [ReviewAction.editServer ch, ReviewAction.confirm]
      = some (ReviewOutcome.confirmed
          ⟨c.project, s, c.domain, c.secrets, c.branches, c.registry⟩, st2)
    ∧ c2.secrets = c.secrets ∧ c2.branches = c.branches := by
  refine ⟨?_, reviewLoop_confirmed_frame acts c st c2 st3 h2⟩
  simp only [reviewLoop, h]

def serverA : ServerConfig := ⟨"1.2.3.4", "root", "~/.ssh/id_rsa", "/opt/apps"⟩

def storeA : GlobalConfig := ⟨[("prod", serverA)], []⟩

def configA : CollectedConfig :=
  ⟨⟨"demo", ProjectType.flask, Language.python, 5000, "",
    "gunicorn -w 4 -b 0.0.0.0:5000 app:app"⟩,
   serverA, ⟨false, "", false⟩, ["SECRET_KEY"], ⟨"main", none⟩, "ghcr.io"⟩

theorem review_edit_server_frame_witness :
    reviewLoop configA storeA
        [ReviewAction.editServer (ServerChoice.pick "prod" "/srv"),
         ReviewAction.confirm]
      = some (ReviewOutcome.confirmed
          ⟨configA.project, ⟨"1.2.3.4", "root", "~/.ssh/id_rsa", "/srv"⟩,
           configA.domain, configA.secrets, configA.branches, configA.registry⟩,
          storeA)
    ∧ configA.secrets = configA.secrets ∧ configA.branches = configA.branches :=
  review_edit_server_frame configA storeA (ServerChoice.pick "prod" "/srv")
    ⟨"1.2.3.4", "root", "~/.ssh/id_rsa", "/srv"⟩ storeA [ReviewAction.confirm]
    configA storeA (by decide) (by decide)

/-- C8: a new server profile entered during collect-server is written into the
store before the review loop runs (third conjunct: the session is the review
loop started from the already-updated store, whatever the review answers are);
cancelling at the review yields no configuration, only the cancelled outcome,
yet the store returned by the session still maps the new label to the new
profile. -/
theorem new_profile_persists_after_cancel (st : GlobalConfig) (p : ProjectSection)
    (answers : ServerConfig) (saveName : String) (d : DomainConfig)
    (secrets : List String) (branches : BranchConfig) :
    collectConfig st p (ServerChoice.addNew answers saveName) d secrets branches
        [ReviewAction.cancel]
      = some (ReviewOutcome.cancelled, saveServer st saveName answers)
    ∧ lookupAssoc (saveServer st saveName answers).servers saveName = some answers
    ∧ (∀ acts : List ReviewAction,
        collectConfig st p (ServerChoice.addNew answers saveName) d secrets
            branches acts
          = reviewLoop ⟨p, answers, d, secrets, branches, "ghcr.io"⟩
              (saveServer st saveName answers) acts) :=
  ⟨rfl, lookupAssoc_setAssoc_self st.servers saveName answers, fun _ => rfl⟩

/-- C9: `saveServer` maps the given label to the given profile, silently
overwriting whatever was stored under that label, and leaves every other
label's profile and the whole project-history map unchanged. -/
theorem save_server_overwrites (cfg : GlobalConfig) (name : String)
    (server : ServerConfig) (l2 : String) (hl : l2 ≠ name) :
    lookupAssoc (saveServer cfg name server).servers name = some server
    ∧ lookupAssoc (saveServer cfg name server).servers l2
        = lookupAssoc cfg.servers l2
    ∧ (saveServer cfg name server).projects = cfg.projects :=
  ⟨lookupAssoc_setAssoc_self cfg.servers name server,
   lookupAssoc_setAssoc_other cfg.servers name server l2 hl, rfl⟩

def serverOld : ServerConfig := ⟨"1.2.3.4", "root", "~/.ssh/id_rsa", "/opt/apps"⟩

def serverNew : ServerConfig := ⟨"5.6.7.8", "deploy", "~/.ssh/deploy_key", "/srv"⟩

def serverEu : ServerConfig := ⟨"9.9.9.9", "root", "~/.ssh/id_rsa", "/opt/eu"⟩

def storeOld : GlobalConfig :=
  ⟨[("prod", serverOld), ("eu", serverEu)], [("demo", ⟨"flask", none⟩)]⟩

theorem save_server_overwrites_witness :
    lookupAssoc (saveServer storeOld "prod" serverNew).servers "prod"
        = some serverNew
    ∧ lookupAssoc (saveServer storeOld "prod" serverNew).servers "eu"
        = lookupAssoc storeOld.servers "eu"
    ∧ (saveServer storeOld "prod" serverNew).projects = storeOld.projects :=
  save_server_overwrites storeOld "prod" serverNew "eu" (by decide)

/-- C10: picking an existing saved profile and overriding its deploy directory
returns a server section whose deploy directory is the override and whose other
fields come from the stored profile, while the store comes back unchanged (no
`saveServer` call happens on this path), so the persisted profile for that
label keeps its original deploy directory. -/
theorem pick_profile_no_store_write (st : GlobalConfig) (label d : String)
    (s : ServerConfig) (h : lookupAssoc st.servers label = some s) :
    collectServerConfig st (ServerChoice.pick label d)
      = some (⟨s.host, s.user, s.sshKeyPath, d⟩, st)
    ∧ lookupAssoc st.servers label = some s := by
  refine ⟨?_, h⟩
  unfold collectServerConfig
  dsimp only
  rw [h]

def storePick : GlobalConfig :=
  ⟨[("prod", ⟨"1.2.3.4", "root", "~/.ssh/id_rsa", "/opt/apps"⟩)], []⟩

theorem pick_profile_no_store_write_witness :
    collectServerConfig storePick (ServerChoice.pick "prod" "/data")
      = some (⟨"1.2.3.4", "root", "~/.ssh/id_rsa", "/data"⟩, storePick)
    ∧ lookupAssoc storePick.servers "prod"
        = some ⟨"1.2.3.4", "root", "~/.ssh/id_rsa", "/opt/apps"⟩ :=
  pick_profile_no_store_write storePick "prod" "/data"
    ⟨"1.2.3.4", "root", "~/.ssh/id_rsa", "/opt/apps"⟩ (by decide)

/-! ## Claims about the detector -/

def fsEnvOrder : FS :=
  ⟨[".env.production", ".env"],
   fun p => if p = ".env" then some "A=1"
            else if p = ".env.production" then some "B=2" else none,
   [], false⟩

/-- C1 (counterexample): in a directory holding both `.env` and
`.env.production`, a listing that returns `.env.production` first makes
`detectProject` select `.env.production` and parse its keys, although the
claimed fixed priority order would select `.env` — selection depends on the
order in which the directory listing returns the entries. -/
theorem envfile_priority_counterexample :
    fsEnvOrder.listing.contains ".env" = true
    ∧ (detectProject fsEnvOrder).envFile = some ".env.production"
    ∧ (detectProject fsEnvOrder).envFile ≠ some ".env"
    ∧ (detectProject fsEnvOrder).envKeys = ["B"] := by
  decide

/-- C1 (amended): `detectProject` selects as env file the first entry of the
directory listing, in listing order, whose name is one of `.env`,
`.env.example`, `.env.production` (the head of the listing filtered to those
names), and parses the selected file's non-comment, non-blank `=` lines into
envKeys (last conjunct: a concrete parse keeping exactly the key of each
non-comment, non-blank line containing `=`). -/
theorem envfile_listing_order (fs : FS) :
    (detectProject fs).envFile = (fs.listing.filter isEnvName).head?
    ∧ (detectProject fs).envKeys =
        (match (fs.listing.filter isEnvName).head? with
          | some f => parseEnvKeys (readF fs f)
          | none => [])
    ∧ parseEnvKeys "DB_URL=postgres://x\n# comment\n\nAPI_KEY = abc\nplain"
        = ["DB_URL", "API_KEY"] := by
  refine ⟨?_, ?_, by decide⟩
  · rw [detectProject_envFile, find?_eq_filter_head?]
  · rw [detectProject_envKeys, find?_eq_filter_head?]

def fsFlaskOnly : FS :=
  ⟨["requirements.txt"],
   fun p => if p = "requirements.txt" then some "flask" else none, [], false⟩

def fsDjangoOnly : FS :=
  ⟨["requirements.txt"],
   fun p => if p = "requirements.txt" then some "django" else none, [], false⟩

def fsFastapiOnly : FS :=
  ⟨["requirements.txt"],
   fun p => if p = "requirements.txt" then some "fastapi" else none, [], false⟩

def fsNestOnly : FS := ⟨["package.json"], fun _ => none, ["@nestjs/core"], false⟩

def fsNextOnly : FS := ⟨["package.json"], fun _ => none, ["next"], false⟩

def fsNuxtOnly : FS := ⟨["package.json"], fun _ => none, ["nuxt"], false⟩

def fsVueOnly : FS := ⟨["package.json"], fun _ => none, ["vue"], false⟩

def fsReactOnly : FS := ⟨["package.json"], fun _ => none, ["react"], false⟩

/-- C2: for each of the eight archetypes, a directory containing only that
archetype's canonical marker (a `requirements.txt` naming the Python framework,
or a `package.json` whose dependencies name the Node framework) detects exactly
that archetype with the static default port, build command, start command and
entry file of the `PROJECT_DEFAULTS` table — in particular flask gets port 5000
and start command `gunicorn -w 4 -b 0.0.0.0:5000 app:app`. -/
theorem archetype_defaults_table :
    detectProject fsFlaskOnly
      = ⟨some ProjectType.flask, some Language.python, "3.11", 5000, "",
         "gunicorn -w 4 -b 0.0.0.0:5000 app:app", "app.py", none, [], false, false⟩
    ∧ detectProject fsDjangoOnly
      = ⟨some ProjectType.django, some Language.python, "3.11", 8000,
         "python manage.py collectstatic --noinput",
         "gunicorn -w 4 -b 0.0.0.0:8000 config.wsgi:application", "manage.py",
         none, [], false, false⟩
    ∧ detectProject fsFastapiOnly
      = ⟨some ProjectType.fastapi, some Language.python, "3.11", 8000, "",
         "uvicorn main:app --host 0.0.0.0 --port 8000", "main.py",
         none, [], false, false⟩
    ∧ detectProject fsNestOnly
      = ⟨some ProjectType.nestjs, some Language.node, "20", 3000, "npm run build",
         "node dist/main", "src/main.ts", none, [], false, false⟩
    ∧ detectProject fsNextOnly
      = ⟨some ProjectType.nextjs, some Language.node, "20", 3000, "npm run build",
         "npm start", "pages/index.tsx", none, [], false, false⟩
    ∧ detectProject fsNuxtOnly
      = ⟨some ProjectType.nuxtjs, some Language.node, "20", 3000, "npm run build",
         "node .output/server/index.mjs", "nuxt.config.ts", none, [], false, false⟩
    ∧ detectProject fsVueOnly
      = ⟨some ProjectType.vueSpa, some Language.node, "20", 80, "npm run build",
         "", "src/main.ts", none, [], false, false⟩
    ∧ detectProject fsReactOnly
      = ⟨some ProjectType.reactSpa, some Language.node, "20", 80, "npm run build",
         "", "src/index.tsx", none, [], false, false⟩ := by
  decide

theorem langStage_pkgDeps (fs : FS) (deps : List String) (r : DetectionResult)
    (h : fs.listing.contains "requirements.txt" = true) :
    langStage { fs with pkgDeps := deps } r = langStage fs r := by
  have hm2 : "requirements.txt" ∈ fs.listing := by simpa using h
  have hc : (fs.listing.contains "requirements.txt"
      || fs.listing.contains "pyproject.toml"
      || fs.listing.contains "Pipfile") = true := by
    simp [hm2]
  unfold langStage
  dsimp only
  simp only [hc, if_true]
  rfl

/-- C3: a directory whose listing contains both `requirements.txt` and
`package.json` is classified on the Python branch (language python, archetype
from the Python rules), and the result never consults `package.json`: changing
the parsed package dependencies changes nothing about the detection result. -/
theorem python_markers_take_priority (fs : FS) (deps : List String)
    (h : fs.listing.contains "requirements.txt" = true)
    (hpkg : fs.listing.contains "package.json" = true) :
    (detectProject fs).language = some Language.python
    ∧ (detectProject fs).type = detectPythonFramework fs
    ∧ detectProject { fs with pkgDeps := deps } = detectProject fs := by
  refine ⟨detectProject_language_python fs h, detectProject_type_python fs h, ?_⟩
  unfold detectProject
  rw [langStage_pkgDeps fs deps _ h]
  rfl

def fsBothMarkers : FS :=
  ⟨["requirements.txt", "package.json"],
   fun p => if p = "requirements.txt" then some "flask" else none,
   ["react"], false⟩

theorem python_markers_take_priority_witness :
    (detectProject fsBothMarkers).language = some Language.python
    ∧ (detectProject fsBothMarkers).type = detectPythonFramework fsBothMarkers
    ∧ detectProject { fsBothMarkers with pkgDeps := ["next"] }
        = detectProject fsBothMarkers :=
  python_markers_take_priority fsBothMarkers ["next"] (by decide) (by decide)

def fsDjangoFlask : FS :=
  ⟨["requirements.txt"],
   fun p => if p = "requirements.txt" then some "django\nflask" else none,
   [], false⟩

/-- C4 (counterexample): a `requirements.txt` whose content is
`django\nflask` contains the substring `flask` and the directory has no
`app.py`, yet the detected archetype is django, not flask — the `django` check
runs before the `flask` check inside the manifest-content step. -/
theorem flask_content_counterexample :
    strIncludes (strToLower (readF fsDjangoFlask "requirements.txt")) "flask" = true
    ∧ fsDjangoFlask.listing.contains "app.py" = false
    ∧ (detectProject fsDjangoFlask).type = some ProjectType.django
    ∧ (detectProject fsDjangoFlask).type ≠ some ProjectType.flask := by
  decide

/-- C4 (amended): manifest content takes priority over filename fallback — if
the lower-cased dependency text contains `flask` and contains neither `fastapi`
nor `django`, the archetype is flask even with no `app.py` listed; and if the
dependency text contains none of the three framework names but `manage.py` is
listed, the archetype is django. -/
theorem manifest_content_over_filenames (fs : FS)
    (h : fs.listing.contains "requirements.txt" = true) :
    (strIncludes (pythonDeps fs) "flask" = true →
      strIncludes (pythonDeps fs) "fastapi" = false →
      strIncludes (pythonDeps fs) "django" = false →
      (detectProject fs).type = some ProjectType.flask)
    ∧ (strIncludes (pythonDeps fs) "fastapi" = false →
      strIncludes (pythonDeps fs) "django" = false →
      strIncludes (pythonDeps fs) "flask" = false →
      fs.listing.contains "manage.py" = true →
      (detectProject fs).type = some ProjectType.django) := by
  constructor
  · intro hf hnf hnd
    rw [detectProject_type_python fs h]
    unfold detectPythonFramework
    simp [hf, hnf, hnd]
  · intro hnf hnd hnfl hm
    rw [detectProject_type_python fs h]
    unfold detectPythonFramework
    have hm2 : "manage.py" ∈ fs.listing := by simpa using hm
    simp [hnf, hnd, hnfl, hm2]

def fsFlaskNoApp : FS :=
  ⟨["requirements.txt"],
   fun p => if p = "requirements.txt" then some "Flask==2.3" else none,
   [], false⟩

theorem manifest_content_over_filenames_witness :
    (detectProject fsFlaskNoApp).type = some ProjectType.flask :=
  (manifest_content_over_filenames fsFlaskNoApp (by decide)).1
    (by decide) (by decide) (by decide)

theorem detectProject_startCmd_stage (fs : FS) :
    (detectProject fs).startCmd
      = (defaultsStage fs (langStage fs (envStage fs (baseResult fs)))).startCmd := by
  unfold detectProject
  rw [portStage_startCmd]

theorem detectProject_entryFile_stage (fs : FS) :
    (detectProject fs).entryFile
      = (defaultsStage fs (langStage fs (envStage fs (baseResult fs)))).entryFile := by
  unfold detectProject
  rw [portStage_entryFile]

theorem detectProject_type_stage (fs : FS) :
    (detectProject fs).type
      = (langStage fs (envStage fs (baseResult fs))).type := by
  unfold detectProject
  rw [portStage_type, defaultsStage_type]

theorem flaskDefaults_factory (fs : FS) (r : DetectionResult) (c : String)
    (hr : r.type = some ProjectType.flask)
    (hc : fs.content "run.py" = some c)
    (hca : strIncludes c "create_app" = true) :
    (defaultsStage fs r).startCmd = "gunicorn -w 4 -b 0.0.0.0:5000 run:app"
    ∧ (defaultsStage fs r).entryFile = "run.py" := by
  simp only [defaultsStage, hr]
  simp only [if_true]
  simp only [flaskRefine, hc]
  rw [if_pos hca]
  exact ⟨rfl, rfl⟩

theorem flaskDefaults_no_runpy (fs : FS) (r : DetectionResult)
    (hr : r.type = some ProjectType.flask)
    (hc : fs.content "run.py" = none) :
    (defaultsStage fs r).startCmd = "gunicorn -w 4 -b 0.0.0.0:5000 app:app"
    ∧ (defaultsStage fs r).entryFile = "app.py" := by
  simp only [defaultsStage, hr]
  simp only [if_true]
  simp only [flaskRefine, hc]
  exact ⟨rfl, rfl⟩

theorem flaskDefaults_no_factory (fs : FS) (r : DetectionResult) (c : String)
    (hr : r.type = some ProjectType.flask)
    (hc : fs.content "run.py" = some c)
    (hca : strIncludes c "create_app" = false) :
    (defaultsStage fs r).startCmd = "gunicorn -w 4 -b 0.0.0.0:5000 app:app"
    ∧ (defaultsStage fs r).entryFile = "app.py" := by
  simp only [defaultsStage, hr]
  simp only [if_true]
  simp only [flaskRefine, hc]
  rw [if_neg (by simp [hca])]
  exact ⟨rfl, rfl⟩

theorem nonflaskDefaults (fs : FS) (r : DetectionResult) (t : ProjectType)
    (hr : r.type = some t) (ht : t ≠ ProjectType.flask) :
    (defaultsStage fs r).startCmd = (PROJECT_DEFAULTS t).startCmd
    ∧ (defaultsStage fs r).entryFile = (PROJECT_DEFAULTS t).entryFile := by
  simp only [defaultsStage, hr]
  rw [if_neg ht]
  exact ⟨rfl, rfl⟩

/-- C5: the Flask application-factory refinement fires exactly when the
detected archetype is flask, `run.py` exists, and its content contains
`create_app` — then the start command's module target becomes `run:app` and the
entry file `run.py`; if `run.py` is missing, or present without `create_app`,
the flask defaults stay untouched; and for every non-flask archetype the start
command and entry file are exactly the per-archetype defaults. -/
theorem flask_factory_refinement (fs : FS) (c : String) :
    ((detectProject fs).type = some ProjectType.flask →
      fs.content "run.py" = some c →
      strIncludes c "create_app" = true →
      (detectProject fs).startCmd = "gunicorn -w 4 -b 0.0.0.0:5000 run:app"
      ∧ (detectProject fs).entryFile = "run.py")
    ∧ ((detectProject fs).type = some ProjectType.flask →
      fs.content "run.py" = none →
      (detectProject fs).startCmd = "gunicorn -w 4 -b 0.0.0.0:5000 app:app"
      ∧ (detectProject fs).entryFile = "app.py")
    ∧ ((detectProject fs).type = some ProjectType.flask →
      fs.content "run.py" = some c →
      strIncludes c "create_app" = false →
      (detectProject fs).startCmd = "gunicorn -w 4 -b 0.0.0.0:5000 app:app"
      ∧ (detectProject fs).entryFile = "app.py")
    ∧ (∀ t : ProjectType, (detectProject fs).type = some t →
      t ≠ ProjectType.flask →
      (detectProject fs).startCmd = (PROJECT_DEFAULTS t).startCmd
      ∧ (detectProject fs).entryFile = (PROJECT_DEFAULTS t).entryFile) := by
  refine ⟨?_, ?_, ?_, ?_⟩
  · intro h1 h2 h3
    have hr : (langStage fs (envStage fs (baseResult fs))).type
        = some ProjectType.flask := by
      rw [← detectProject_type_stage fs]; exact h1
    rw [detectProject_startCmd_stage, detectProject_entryFile_stage]
    exact flaskDefaults_factory fs _ c hr h2 h3
  · intro h1 h2
    have hr : (langStage fs (envStage fs (baseResult fs))).type
        = some ProjectType.flask := by
      rw [← detectProject_type_stage fs]; exact h1
    rw [detectProject_startCmd_stage, detectProject_entryFile_stage]
    exact flaskDefaults_no_runpy fs _ hr h2
  · intro h1 h2 h3
    have hr : (langStage fs (envStage fs (baseResult fs))).type
        = some ProjectType.flask := by
      rw [← detectProject_type_stage fs]; exact h1
    rw [detectProject_startCmd_stage, detectProject_entryFile_stage]
    exact flaskDefaults_no_factory fs _ c hr h2 h3
  · intro t h1 ht
    have hr : (langStage fs (envStage fs (baseResult fs))).type = some t := by
      rw [← detectProject_type_stage fs]; exact h1
    rw [detectProject_startCmd_stage, detectProject_entryFile_stage]
    exact nonflaskDefaults fs _ t hr ht

def fsFlaskFactory : FS :=
  ⟨["requirements.txt"],
   fun p => if p = "requirements.txt" then some "flask"
            else if p = "run.py" then some "from app import create_app" else none,
   [], false⟩

theorem flask_factory_refinement_witness :
    (detectProject fsFlaskFactory).startCmd
        = "gunicorn -w 4 -b 0.0.0.0:5000 run:app"
    ∧ (detectProject fsFlaskFactory).entryFile = "run.py" :=
  (flask_factory_refinement fsFlaskFactory "from app import create_app").1
    (by decide) (by decide) (by decide)

def fsPortEarlier : FS :=
  ⟨["requirements.txt", "app.py"],
   fun p => if p = "requirements.txt" then some "flask"
            else if p = "app.py" then some "port = 8080\nPORT = \"4500\"" else none,
   [], false⟩

/-- C6 (counterexample): a scanned candidate file (`app.py` of a flask
project) whose content contains the text `PORT = "4500"` does not make
`detectProject` return 4500 when an earlier pattern match exists in the same
file — here `port = 8080` matches the first pattern, so the port is 8080. -/
theorem port_scan_counterexample :
    strIncludes (readF fsPortEarlier "app.py") "PORT = \"4500\"" = true
    ∧ (detectProject fsPortEarlier).port = 8080
    ∧ (detectProject fsPortEarlier).port ≠ 4500 := by
  decide

def fsPortQuoted : FS :=
  ⟨["requirements.txt", "app.py"],
   fun p => if p = "requirements.txt" then some "flask"
            else if p = "app.py" then some "PORT = \"4500\"" else none,
   [], false⟩

def fsPortFileOrder : FS :=
  ⟨["requirements.txt", "app.py", "main.py"],
   fun p => if p = "requirements.txt" then some "flask"
            else if p = "app.py" then some "listen(7000)"
            else if p = "main.py" then some "port = 9000" else none,
   [], false⟩

def fsPortPatternOrder : FS :=
  ⟨["requirements.txt", "app.py"],
   fun p => if p = "requirements.txt" then some "flask"
            else if p = "app.py" then some "listen(7000)\nport = 9000" else none,
   [], false⟩

/-- C6 (amended): the port override takes the first match in candidate-file
order and then pattern order, and overrides the archetype default only then: a
flask project whose `app.py` is exactly `PORT = "4500"` gets port 4500 instead
of the default 5000 (first two conjuncts); when `app.py` matches `listen(7000)`,
a later candidate file's `port = 9000` is never reached (fourth conjunct); and
within one file the first pattern `port = 9000` beats the textually earlier
`listen(7000)` because patterns are tried in their fixed order over the whole
content (fifth conjunct). -/
theorem port_scan_first_match :
    (detectProject fsPortQuoted).port = 4500
    ∧ (PROJECT_DEFAULTS ProjectType.flask).port = 5000
    ∧ (detectProject fsPortQuoted).type = some ProjectType.flask
    ∧ (detectProject fsPortFileOrder).port = 7000
    ∧ (detectProject fsPortPatternOrder).port = 9000 := by
  decide

end DeploySetup
